import Mathlib

/-!
Verification of the photo-to-print placer (src/main.py).

The geometry, page layout, caching and output pipeline of the `place`
command are embedded as executable Lean definitions over `ℚ`
(the Python code computes with floats; we use exact rationals as the
idealised semantics).  External library capabilities (PIL's thumbnail
resize and the ghostscript size optimizer) are modelled from the spec,
as marked on their doc comments.
-/

namespace PhotoPlacer

/-- TARGET_SIZE = 2480, 1748 (src/main.py line 28). -/
def TARGET_SIZE : ℚ × ℚ := (2480, 1748)

/-- CONTENT_MAX_WIDTH = 210 - 8 (src/main.py line 29). -/
def CONTENT_MAX_WIDTH : ℚ := 210 - 8

/-- CONTENT_MAX_HEIGHT = (297 / 2) - 4 (src/main.py line 30). -/
def CONTENT_MAX_HEIGHT : ℚ := 297 / 2 - 4

/-- contentRatio = CONTENT_MAX_WIDTH / CONTENT_MAX_HEIGHT (src/main.py line 31,
named CONTENT_RATIO there). -/
def contentRatio : ℚ := CONTENT_MAX_WIDTH / CONTENT_MAX_HEIGHT

/-- Center of the Top slot: `center = 105, (148 / 2)` (src/main.py line 73). -/
def topCenter : ℚ × ℚ := (105, 148 / 2)

/-- Center of the Bottom slot: `center = 105, 148 + (148 / 2)` (src/main.py line 75). -/
def bottomCenter : ℚ × ℚ := (105, 148 + 148 / 2)

/-- A draw rectangle passed to `pdf.image`: origin (x, y) and drawn size.
The source passes either `w=` or `h=`; fpdf derives the other dimension from
the image's aspect ratio, so we record both. -/
structure Placement where
  x : ℚ
  y : ℚ
  w : ℚ
  h : ℚ
  deriving DecidableEq, Repr

/-- Placement computation, src/main.py lines 87-113: `ratio = width / height`,
`is_wider = ratio >= CONTENT_RATIO`; fit to width when wider, else fit to
height, in both cases centering on the slot center. -/
def placeImage (center : ℚ × ℚ) (width height : ℚ) : Placement :=
  let ratio := width / height
  let is_wider := contentRatio ≤ ratio
  if is_wider then
    { x := center.1 - CONTENT_MAX_WIDTH / 2
      y := center.2 - (CONTENT_MAX_WIDTH / ratio) / 2
      w := CONTENT_MAX_WIDTH
      h := CONTENT_MAX_WIDTH / ratio }
  else
    { x := center.1 - (CONTENT_MAX_HEIGHT * ratio) / 2
      y := center.2 - CONTENT_MAX_HEIGHT / 2
      w := CONTENT_MAX_HEIGHT * ratio
      h := CONTENT_MAX_HEIGHT }

/-- C1: with ratio = width/height and contentRatio = 202/144.5, the fit-to-width
branch is used exactly when ratio ≥ contentRatio, with target width 202,
x = centerX - 202/2 and y = centerY - (202/ratio)/2; otherwise the fit-to-height
branch, with target height 144.5, x = centerX - (144.5*ratio)/2 and
y = centerY - 144.5/2; at ratio = contentRatio exactly the fit-to-width branch
is taken. -/
theorem c1_branch_selection (width height cx cy : ℚ)
    (hw : 0 < width) (hh : 0 < height) :
    contentRatio = 202 / (289 / 2)
    ∧ (contentRatio ≤ width / height →
        placeImage (cx, cy) width height =
          ⟨cx - 202 / 2, cy - (202 / (width / height)) / 2,
           202, 202 / (width / height)⟩)
    ∧ (width / height < contentRatio →
        placeImage (cx, cy) width height =
          ⟨cx - (289 / 2 * (width / height)) / 2, cy - (289 / 2) / 2,
           289 / 2 * (width / height), 289 / 2⟩)
    ∧ (width / height = contentRatio →
        placeImage (cx, cy) width height =
          ⟨cx - 202 / 2, cy - (202 / (width / height)) / 2,
           202, 202 / (width / height)⟩) := by
  refine ⟨by norm_num [contentRatio, CONTENT_MAX_WIDTH, CONTENT_MAX_HEIGHT], ?_, ?_, ?_⟩
  · intro hle
    simp only [placeImage, if_pos hle]
    norm_num [CONTENT_MAX_WIDTH]
  · intro hlt
    simp only [placeImage, if_neg (not_le.mpr hlt)]
    norm_num [CONTENT_MAX_HEIGHT]
  · intro heq
    simp only [placeImage, if_pos (le_of_eq heq.symm)]
    norm_num [CONTENT_MAX_WIDTH]

/-- Witness for c1_branch_selection: an image of 404 × 289 pixels has ratio
exactly contentRatio and lands in the fit-to-width branch. -/
theorem c1_branch_selection_witness :
    (0 : ℚ) < 404 ∧ (0 : ℚ) < 289
    ∧ placeImage ((105 : ℚ), (74 : ℚ)) 404 289 =
        ⟨105 - 202 / 2, 74 - (202 / ((404 : ℚ) / 289)) / 2,
         202, 202 / ((404 : ℚ) / 289)⟩ := by
  refine ⟨by norm_num, by norm_num, ?_⟩
  exact (c1_branch_selection 404 289 105 74 (by norm_num) (by norm_num)).2.2.2
    (by norm_num [contentRatio, CONTENT_MAX_WIDTH, CONTENT_MAX_HEIGHT])

/-- C3: for positive pixel dimensions, the computed draw rectangle preserves
the image's aspect ratio (w/h = width/height exactly in the rational model)
and is centered on the slot center both horizontally and vertically. -/
theorem c3_aspect_and_centering (width height cx cy : ℚ)
    (hw : 0 < width) (hh : 0 < height) :
    (placeImage (cx, cy) width height).w / (placeImage (cx, cy) width height).h
        = width / height
    ∧ (placeImage (cx, cy) width height).x
        + (placeImage (cx, cy) width height).w / 2 = cx
    ∧ (placeImage (cx, cy) width height).y
        + (placeImage (cx, cy) width height).h / 2 = cy := by
  have hr : 0 < width / height := div_pos hw hh
  have hcw : (CONTENT_MAX_WIDTH : ℚ) = 202 := by norm_num [CONTENT_MAX_WIDTH]
  have hch : (CONTENT_MAX_HEIGHT : ℚ) = 289 / 2 := by norm_num [CONTENT_MAX_HEIGHT]
  unfold placeImage
  by_cases hcase : contentRatio ≤ width / height
  · simp only [if_pos hcase, hcw]
    refine ⟨?_, by ring, by ring⟩
    rw [div_div_eq_mul_div, mul_comm, mul_div_assoc,
      div_self (by norm_num : (202 : ℚ) ≠ 0), mul_one]
  · simp only [if_neg hcase, hch]
    refine ⟨?_, by ring, by ring⟩
    rw [mul_comm, mul_div_assoc]
    rw [div_self (by norm_num : (289 : ℚ) / 2 ≠ 0), mul_one]

/-- Witness for c3_aspect_and_centering at a 3 × 2 image in the Top slot. -/
theorem c3_aspect_and_centering_witness :
    (0 : ℚ) < 3 ∧ (0 : ℚ) < 2
    ∧ ((placeImage ((105 : ℚ), (74 : ℚ)) 3 2).w
          / (placeImage ((105 : ℚ), (74 : ℚ)) 3 2).h = (3 : ℚ) / 2
      ∧ (placeImage ((105 : ℚ), (74 : ℚ)) 3 2).x
          + (placeImage ((105 : ℚ), (74 : ℚ)) 3 2).w / 2 = 105
      ∧ (placeImage ((105 : ℚ), (74 : ℚ)) 3 2).y
          + (placeImage ((105 : ℚ), (74 : ℚ)) 3 2).h / 2 = 74) :=
  ⟨by norm_num, by norm_num,
    c3_aspect_and_centering 3 2 105 74 (by norm_num) (by norm_num)⟩

/-- Helper: the draw rectangle always stays within 101 of the slot center
horizontally and within 289/4 of it vertically. -/
theorem placeImage_in_box (center : ℚ × ℚ) (width height : ℚ)
    (hw : 0 < width) (hh : 0 < height) :
    center.1 - 101 ≤ (placeImage center width height).x
    ∧ (placeImage center width height).x + (placeImage center width height).w
        ≤ center.1 + 101
    ∧ center.2 - 289 / 4 ≤ (placeImage center width height).y
    ∧ (placeImage center width height).y + (placeImage center width height).h
        ≤ center.2 + 289 / 4 := by
  have hr : 0 < width / height := div_pos hw hh
  have hcr : contentRatio = 404 / 289 := by
    norm_num [contentRatio, CONTENT_MAX_WIDTH, CONTENT_MAX_HEIGHT]
  have hcw : (CONTENT_MAX_WIDTH : ℚ) = 202 := by norm_num [CONTENT_MAX_WIDTH]
  have hch : (CONTENT_MAX_HEIGHT : ℚ) = 289 / 2 := by norm_num [CONTENT_MAX_HEIGHT]
  unfold placeImage
  by_cases hcase : contentRatio ≤ width / height
  · rw [hcr] at hcase
    have hhi : 202 / (width / height) ≤ 289 / 2 := by
      rw [div_le_iff hr]; linarith
    have hlo : 0 < 202 / (width / height) := by positivity
    simp only [if_pos (hcr ▸ hcase), hcw]
    refine ⟨by linarith, by linarith, by linarith, by linarith⟩
  · rw [hcr] at hcase
    have hwid : 289 / 2 * (width / height) ≤ 202 := by nlinarith [not_le.mp hcase]
    have hwlo : 0 < 289 / 2 * (width / height) := by positivity
    simp only [if_neg (hcr ▸ hcase), hch]
    refine ⟨by linarith, by linarith, by linarith, by linarith⟩

/-- C7: for positive pixel dimensions, a Top-slot rectangle lies in
x ∈ [4, 206], y ∈ [7/4, 585/4] and a Bottom-slot rectangle lies in
x ∈ [4, 206], y ∈ [599/4, 1177/4], the half-page bands. -/
theorem c7_containment (width height : ℚ) (hw : 0 < width) (hh : 0 < height) :
    (4 ≤ (placeImage topCenter width height).x
      ∧ (placeImage topCenter width height).x
          + (placeImage topCenter width height).w ≤ 206
      ∧ 7 / 4 ≤ (placeImage topCenter width height).y
      ∧ (placeImage topCenter width height).y
          + (placeImage topCenter width height).h ≤ 585 / 4)
    ∧ (4 ≤ (placeImage bottomCenter width height).x
      ∧ (placeImage bottomCenter width height).x
          + (placeImage bottomCenter width height).w ≤ 206
      ∧ 599 / 4 ≤ (placeImage bottomCenter width height).y
      ∧ (placeImage bottomCenter width height).y
          + (placeImage bottomCenter width height).h ≤ 1177 / 4) := by
  have ht := placeImage_in_box topCenter width height hw hh
  have hb := placeImage_in_box bottomCenter width height hw hh
  have ht1 : topCenter.1 = 105 := by norm_num [topCenter]
  have ht2 : topCenter.2 = 74 := by norm_num [topCenter]
  have hb1 : bottomCenter.1 = 105 := by norm_num [bottomCenter]
  have hb2 : bottomCenter.2 = 222 := by norm_num [bottomCenter]
  rw [ht1, ht2] at ht
  rw [hb1, hb2] at hb
  exact ⟨⟨by linarith [ht.1], by linarith [ht.2.1],
          by linarith [ht.2.2.1], by linarith [ht.2.2.2]⟩,
         ⟨by linarith [hb.1], by linarith [hb.2.1],
          by linarith [hb.2.2.1], by linarith [hb.2.2.2]⟩⟩

/-- Witness for c7_containment at a 3 × 2 image. -/
theorem c7_containment_witness :
    (0 : ℚ) < 3 ∧ (0 : ℚ) < 2
    ∧ 4 ≤ (placeImage topCenter (3 : ℚ) 2).x
    ∧ 599 / 4 ≤ (placeImage bottomCenter (3 : ℚ) 2).y :=
  ⟨by norm_num, by norm_num,
    (c7_containment 3 2 (by norm_num) (by norm_num)).1.1,
    (c7_containment 3 2 (by norm_num) (by norm_num)).2.2.2.1⟩

/-- Endpoints of the dashed guide line drawn on each new page:
`pdf.dashed_line(0, 148, 210, 148)` (src/main.py line 70). -/
def guideLine : (ℚ × ℚ) × (ℚ × ℚ) := ((0, 148), (210, 148))

/-- A page of the output document: its dashed guide line and the draw
rectangles placed on it, in drawing order. -/
structure Page where
  guide : (ℚ × ℚ) × (ℚ × ℚ)
  images : List Placement
  deriving DecidableEq, Repr

/-- One iteration of the loop body of `place` (src/main.py lines 61-113) acting
on the page list, for one enumerated image with its cached dimensions.
`is_top = i % 2 == 0` adds a page with the guide line and draws in the Top
slot; otherwise the image is drawn in the Bottom slot of the current page.
The page list is held most-recent-first and reversed at the end. -/
def placeStep (pages : List Page) (entry : ℕ × (ℚ × ℚ)) : List Page :=
  if entry.1 % 2 = 0 then
    Page.mk guideLine [placeImage topCenter entry.2.1 entry.2.2] :: pages
  else
    match pages with
    | [] => []
    | p :: rest =>
        Page.mk p.guide
          (p.images ++ [placeImage bottomCenter entry.2.1 entry.2.2]) :: rest

/-- The document produced by the enumerated loop of `place` over the cached
dimensions of the discovered images, in discovery order. -/
def layoutFold (dims : List (ℚ × ℚ)) : List Page :=
  (List.foldl placeStep [] (List.enum dims)).reverse

/-- Pairwise characterization of the layout: each page takes two consecutive
images, the first in the Top slot, the second in the Bottom slot. -/
def layoutPages : List (ℚ × ℚ) → List Page
  | [] => []
  | [d] => [Page.mk guideLine [placeImage topCenter d.1 d.2]]
  | d1 :: d2 :: rest =>
      Page.mk guideLine
        [placeImage topCenter d1.1 d1.2, placeImage bottomCenter d2.1 d2.2]
        :: layoutPages rest

/-- Two-step list induction principle, matching the shape of `layoutPages`. -/
def twoStepInd {α : Type} {P : List α → Prop} (h0 : P []) (h1 : ∀ d, P [d])
    (h2 : ∀ d1 d2 rest, P rest → P (d1 :: d2 :: rest)) : ∀ l, P l
  | [] => h0
  | [d] => h1 d
  | d1 :: d2 :: rest => h2 d1 d2 rest (twoStepInd h0 h1 h2 rest)

/-- Folding the loop body from any even start index produces the pairwise
layout (reversed) on top of the incoming state. -/
theorem foldl_placeStep_eq (dims : List (ℚ × ℚ)) :
    ∀ (n : ℕ) (st : List Page), n % 2 = 0 →
      List.foldl placeStep st (List.enumFrom n dims)
        = (layoutPages dims).reverse ++ st := by
  induction dims using twoStepInd with
  | h0 => intro n st _; simp [layoutPages, List.enumFrom]
  | h1 d =>
      intro n st hn
      simp [layoutPages, List.enumFrom, placeStep, hn]
  | h2 d1 d2 rest ih =>
      intro n st hn
      have hstep : List.enumFrom n (d1 :: d2 :: rest)
          = (n, d1) :: (n + 1, d2) :: List.enumFrom (n + 2) rest := by
        simp [List.enumFrom]
      rw [hstep, List.foldl_cons, List.foldl_cons]
      have hodd : ¬ ((n + 1) % 2 = 0) := by omega
      have h1st : placeStep st (n, d1)
          = Page.mk guideLine [placeImage topCenter d1.1 d1.2] :: st := by
        simp [placeStep, hn]
      have h2nd : placeStep
            (Page.mk guideLine [placeImage topCenter d1.1 d1.2] :: st)
            (n + 1, d2)
          = Page.mk guideLine
              [placeImage topCenter d1.1 d1.2,
               placeImage bottomCenter d2.1 d2.2] :: st := by
        simp [placeStep, hodd]
      rw [h1st, h2nd, ih (n + 2) _ (by omega)]
      simp [layoutPages, List.append_assoc]

/-- The loop-generated document equals its pairwise characterization. -/
theorem layoutFold_eq (dims : List (ℚ × ℚ)) :
    layoutFold dims = layoutPages dims := by
  unfold layoutFold
  rw [show List.enum dims = List.enumFrom 0 dims from rfl,
    foldl_placeStep_eq dims 0 [] rfl]
  simp

/-- The number of pages is always the ceiling of half the image count. -/
theorem layoutPages_length (dims : List (ℚ × ℚ)) :
    (layoutPages dims).length = (dims.length + 1) / 2 := by
  induction dims using twoStepInd with
  | h0 => simp [layoutPages]
  | h1 d => simp [layoutPages]
  | h2 d1 d2 rest ih => simp [layoutPages, ih]; omega

/-- Page k holds image 2k in its Top slot and, when present, image 2k+1 in
its Bottom slot. -/
theorem layoutPages_get? (dims : List (ℚ × ℚ)) :
    ∀ k, (layoutPages dims).get? k =
      (dims.get? (2 * k)).map (fun d =>
        Page.mk guideLine
          ([placeImage topCenter d.1 d.2]
            ++ ((dims.get? (2 * k + 1)).map
                  (fun d2 => placeImage bottomCenter d2.1 d2.2)).toList)) := by
  induction dims using twoStepInd with
  | h0 => intro k; simp [layoutPages]
  | h1 d =>
      intro k
      match k with
      | 0 => simp [layoutPages]
      | k + 1 =>
          have h2k : 2 * (k + 1) = 2 * k + 1 + 1 := by ring
          simp [layoutPages, h2k]
  | h2 d1 d2 rest ih =>
      intro k
      match k with
      | 0 => simp [layoutPages]
      | k + 1 =>
          have h2k : 2 * (k + 1) = 2 * k + 1 + 1 := by ring
          have h2k' : 2 * (k + 1) + 1 = 2 * k + 1 + 1 + 1 := by ring
          simp only [layoutPages, List.get?_cons_succ, h2k, h2k']
          exact ih k

/-- C2: the Top slot center is (105, 74) and the Bottom slot center is
(105, 222); the guide line runs from (0, 148) to (210, 148); the document has
exactly ceil(N/2) = (N+1)/2 pages; and page k starts with image 2k in the Top
slot (so image i starts a new page iff i is even), followed by image 2k+1 in
the Bottom slot of the same page when it exists (i odd stays on the current
page). -/
theorem c2_page_alternation (dims : List (ℚ × ℚ)) :
    topCenter = ((105 : ℚ), (74 : ℚ))
    ∧ bottomCenter = ((105 : ℚ), (222 : ℚ))
    ∧ guideLine = (((0 : ℚ), (148 : ℚ)), ((210 : ℚ), (148 : ℚ)))
    ∧ (layoutFold dims).length = (dims.length + 1) / 2
    ∧ ∀ k, (layoutFold dims).get? k =
        (dims.get? (2 * k)).map (fun d =>
          Page.mk guideLine
            ([placeImage topCenter d.1 d.2]
              ++ ((dims.get? (2 * k + 1)).map
                    (fun d2 => placeImage bottomCenter d2.1 d2.2)).toList)) := by
  refine ⟨?_, ?_, rfl, ?_, ?_⟩
  · norm_num [topCenter]
  · norm_num [bottomCenter]
  · rw [layoutFold_eq]; exact layoutPages_length dims
  · intro k; rw [layoutFold_eq]; exact layoutPages_get? dims k

/-- C10: every page of the produced document holds at least one image; every
page other than the last holds exactly two; and the last page holds exactly
one image iff the number of images is odd. -/
theorem c10_page_occupancy (dims : List (ℚ × ℚ)) (k : ℕ) (page : Page)
    (hk : (layoutFold dims).get? k = some page) :
    1 ≤ page.images.length
    ∧ (k + 1 < (layoutFold dims).length → page.images.length = 2)
    ∧ (k + 1 = (layoutFold dims).length →
        (page.images.length = 1 ↔ dims.length % 2 = 1)) := by
  rw [layoutFold_eq, layoutPages_get? dims k] at hk
  have hlen : (layoutFold dims).length = (dims.length + 1) / 2 := by
    rw [layoutFold_eq]; exact layoutPages_length dims
  cases h1 : dims.get? (2 * k) with
  | none => rw [h1] at hk; simp at hk
  | some d =>
      rw [h1] at hk
      simp only [Option.map_some'] at hk
      have hpage := (Option.some.inj hk).symm
      have hk1 : 2 * k < dims.length := by
        by_contra hge
        rw [List.get?_eq_none.mpr (by omega)] at h1
        exact Option.noConfusion h1
      cases h2 : dims.get? (2 * k + 1) with
      | none =>
          have hk2 : dims.length ≤ 2 * k + 1 := List.get?_eq_none.mp h2
          rw [h2] at hpage
          have hlen1 : page.images.length = 1 := by rw [hpage]; rfl
          refine ⟨by omega, ?_, ?_⟩
          · intro hlt; rw [hlen] at hlt; omega
          · intro _; rw [hlen1]; constructor
            · intro _; omega
            · intro _; rfl
      | some d2 =>
          have hk2 : 2 * k + 1 < dims.length := by
            by_contra hge
            rw [List.get?_eq_none.mpr (by omega)] at h2
            exact Option.noConfusion h2
          rw [h2] at hpage
          have hlen2 : page.images.length = 2 := by rw [hpage]; rfl
          refine ⟨by omega, fun _ => hlen2, ?_⟩
          · intro hlast
            rw [hlen] at hlast
            rw [hlen2]
            constructor
            · intro h; omega
            · intro hodd; omega

/-- Witness for c10_page_occupancy: a single 4 × 3 image yields one page
holding exactly that image in the Top slot. -/
theorem c10_page_occupancy_witness :
    1 ≤ (Page.mk guideLine [placeImage topCenter 4 3]).images.length :=
  (c10_page_occupancy [((4 : ℚ), (3 : ℚ))] 0
    (Page.mk guideLine [placeImage topCenter 4 3])
    (by rw [layoutFold_eq]; rfl)).1

/-- A discovered source image: its canonical posix path string and its
extension (`path.suffix`). Pixel dimensions are only known after decode. -/
structure SourceImage where
  path : String
  ext : String
  deriving DecidableEq

/-- Cache file name (src/main.py lines 62-64):
`(CACHE_FOLDER / md5(path.as_posix()).hexdigest()).with_suffix(image_ext)`.
The md5 hex digest carries no dot, so `with_suffix` appends the source's
extension. The hash function is a parameter of the model. -/
def cachedKey (hash : String → String) (src : SourceImage) : String :=
  hash src.path ++ src.ext

/-- The on-disk cache directory: maps a cache file name to the pixel
dimensions of the image file stored there, when one exists. -/
def Cache : Type := String → Option (ℚ × ℚ)

/-- Rotation normalization (src/main.py lines 80-82): `if im.width < im.height:
im = im.rotate(90, expand=True)`. Rotating by 90° with an expanded canvas
swaps the pixel dimensions; otherwise the image is left as is. -/
def rotateIfPortrait (w h : ℚ) : ℚ × ℚ :=
  if w < h then (h, w) else (w, h)

/-- Modelled from the spec: `im.thumbnail(TARGET_SIZE, Image.ANTIALIAS)`
(src/main.py line 83) is an external PIL capability; per the spec it
downscales (never upscales) so neither dimension exceeds the 2480×1748
target, preserving aspect ratio, and leaves images already within the
target bounds unchanged. -/
def thumbnail (w h : ℚ) : ℚ × ℚ :=
  if w ≤ TARGET_SIZE.1 ∧ h ≤ TARGET_SIZE.2 then (w, h)
  else
    let s := min (TARGET_SIZE.1 / w) (TARGET_SIZE.2 / h)
    (w * s, h * s)

/-- Cache-miss processing (src/main.py lines 79-84): the decoded source
dimensions are rotation-normalized, then resized to the target bounds. -/
def processDims (w h : ℚ) : ℚ × ℚ :=
  thumbnail (rotateIfPortrait w h).1 (rotateIfPortrait w h).2

/-- Result of resolving one image against the cache: the new cache state,
the cached pixel dimensions read back by `imagesize.get`, and the number of
decode/rotate/resize/encode passes performed. -/
structure Resolved where
  cache : Cache
  dims : ℚ × ℚ
  work : ℕ

/-- Cache resolution (src/main.py lines 62-87): when a file exists at the
hashed path it is a hit: only its dimensions are read, no processing work is
done. On a miss the source is decoded (`Image.open`, which can fail),
rotation-normalized, resized, and saved at the hashed path; its dimensions
are then read back. -/
def resolve (decode : SourceImage → Except String (ℚ × ℚ))
    (hash : String → String) (c : Cache) (src : SourceImage) :
    Except String Resolved :=
  match c (cachedKey hash src) with
  | some d => Except.ok (Resolved.mk c d 0)
  | none =>
      match decode src with
      | Except.error e => Except.error e
      | Except.ok wh =>
          let d := processDims wh.1 wh.2
          Except.ok (Resolved.mk
            (fun k => if k = cachedKey hash src then some d else c k) d 1)

/-- C4: cache resolution is idempotent. A hit performs zero processing work,
reads only the cached dimensions and leaves the cache unchanged; and after
any successful resolution (which performs at most one processing pass), a
second resolution of the same identity is a pure hit returning identical
dimensions with zero further work. -/
theorem c4_cache_idempotent (decode : SourceImage → Except String (ℚ × ℚ))
    (hash : String → String) (c : Cache) (src : SourceImage) :
    (∀ d, c (cachedKey hash src) = some d →
        resolve decode hash c src = Except.ok (Resolved.mk c d 0))
    ∧ (∀ r, resolve decode hash c src = Except.ok r →
        r.work ≤ 1
        ∧ resolve decode hash r.cache src
            = Except.ok (Resolved.mk r.cache r.dims 0)) := by
  constructor
  · intro d hd
    simp [resolve, hd]
  · intro r hr
    cases hhit : c (cachedKey hash src) with
    | some d =>
        rw [resolve, hhit] at hr
        have hr' := (Except.ok.inj hr).symm
        subst hr'
        simp [resolve, hhit]
    | none =>
        rw [resolve, hhit] at hr
        cases hdec : decode src with
        | error e => rw [hdec] at hr; exact Except.noConfusion hr
        | ok wh =>
            rw [hdec] at hr
            have hr' := (Except.ok.inj hr).symm
            subst hr'
            refine ⟨le_refl 1, ?_⟩
            simp [resolve]

/-- Witness for c4_cache_idempotent: a cache holding dimensions (10, 5) for
every name yields a hit with zero work. -/
theorem c4_cache_idempotent_witness :
    (fun _ : String => some ((10 : ℚ), (5 : ℚ)))
        (cachedKey (fun _ => "k") (SourceImage.mk "p" ".jpg"))
      = some ((10 : ℚ), (5 : ℚ))
    ∧ resolve (fun _ => Except.ok ((4 : ℚ), (3 : ℚ))) (fun _ => "k")
        (fun _ => some ((10 : ℚ), (5 : ℚ))) (SourceImage.mk "p" ".jpg")
      = Except.ok (Resolved.mk (fun _ => some ((10 : ℚ), (5 : ℚ)))
          ((10 : ℚ), (5 : ℚ)) 0) :=
  ⟨rfl,
    (c4_cache_idempotent (fun _ => Except.ok ((4 : ℚ), (3 : ℚ))) (fun _ => "k")
      (fun _ => some ((10 : ℚ), (5 : ℚ))) (SourceImage.mk "p" ".jpg")).1
      ((10 : ℚ), (5 : ℚ)) rfl⟩

/-- Helper: the resize fits within the target bounds, preserves the aspect
ratio exactly (in the rational model), never upscales, and keeps dimensions
positive. -/
theorem thumbnail_spec (w h : ℚ) (hw : 0 < w) (hh : 0 < h) :
    (thumbnail w h).1 ≤ 2480 ∧ (thumbnail w h).2 ≤ 1748
    ∧ (thumbnail w h).1 * h = (thumbnail w h).2 * w
    ∧ (thumbnail w h).1 ≤ w ∧ (thumbnail w h).2 ≤ h
    ∧ 0 < (thumbnail w h).1 ∧ 0 < (thumbnail w h).2 := by
  have ht1 : TARGET_SIZE.1 = 2480 := by norm_num [TARGET_SIZE]
  have ht2 : TARGET_SIZE.2 = 1748 := by norm_num [TARGET_SIZE]
  unfold thumbnail
  rw [ht1, ht2]
  by_cases hin : w ≤ 2480 ∧ h ≤ 1748
  · rw [if_pos hin]
    exact ⟨hin.1, hin.2, by ring, le_refl w, le_refl h, hw, hh⟩
  · rw [if_neg hin]
    simp only
    set s := min (2480 / w) (1748 / h) with hs
    have hs1 : s ≤ 2480 / w := min_le_left _ _
    have hs2 : s ≤ 1748 / h := min_le_right _ _
    have hspos : 0 < s := lt_min (div_pos (by norm_num) hw) (div_pos (by norm_num) hh)
    have hb1 : w * s ≤ 2480 := by
      rw [le_div_iff hw] at hs1
      nlinarith
    have hb2 : h * s ≤ 1748 := by
      rw [le_div_iff hh] at hs2
      nlinarith
    have hsle1 : s ≤ 1 := by
      rcases not_and_or.mp hin with hbig | hbig
      · have : 2480 / w < 1 := (div_lt_one hw).mpr (not_le.mp hbig)
        exact le_of_lt (lt_of_le_of_lt hs1 this)
      · have : 1748 / h < 1 := (div_lt_one hh).mpr (not_le.mp hbig)
        exact le_of_lt (lt_of_le_of_lt hs2 this)
    refine ⟨hb1, hb2, by ring, ?_, ?_, ?_, ?_⟩
    · nlinarith
    · nlinarith
    · exact mul_pos hw hspos
    · exact mul_pos hh hspos

/-- Helper: rotation normalization yields positive, landscape-ordered
dimensions from positive inputs. -/
theorem rotateIfPortrait_pos (w h : ℚ) (hw : 0 < w) (hh : 0 < h) :
    0 < (rotateIfPortrait w h).1 ∧ 0 < (rotateIfPortrait w h).2
    ∧ (rotateIfPortrait w h).2 ≤ (rotateIfPortrait w h).1 := by
  unfold rotateIfPortrait
  by_cases hlt : w < h
  · rw [if_pos hlt]; exact ⟨hh, hw, le_of_lt hlt⟩
  · rw [if_neg hlt]; exact ⟨hw, hh, not_lt.mp hlt⟩

/-- C5: on a cache miss, a portrait source (height > width) is rotated,
swapping its dimensions, a landscape or square source (width ≥ height) is
not, and hence every portrait source's cached copy is landscape
(cached width ≥ cached height). -/
theorem c5_rotation_normalization (w h : ℚ) (hw : 0 < w) :
    (w < h → rotateIfPortrait w h = (h, w))
    ∧ (h ≤ w → rotateIfPortrait w h = (w, h))
    ∧ (w < h → (processDims w h).2 ≤ (processDims w h).1) := by
  refine ⟨?_, ?_, ?_⟩
  · intro hlt; rw [rotateIfPortrait, if_pos hlt]
  · intro hle; rw [rotateIfPortrait, if_neg (not_lt.mpr hle)]
  · intro hlt
    have hh : 0 < h := lt_trans hw hlt
    have hrot : rotateIfPortrait w h = (h, w) := by
      rw [rotateIfPortrait, if_pos hlt]
    have hpd : processDims w h = thumbnail h w := by
      rw [processDims, hrot]
    rw [hpd]
    have hts := thumbnail_spec h w hh hw
    nlinarith [hts.2.2.1, hts.2.2.2.2.2.1, hts.2.2.2.2.2.2, le_of_lt hlt]

/-- Witness for c5_rotation_normalization: a 3 × 4 portrait source is rotated
to 4 × 3 and its cached copy is landscape. -/
theorem c5_rotation_normalization_witness :
    (0 : ℚ) < 3 ∧ (3 : ℚ) < 4
    ∧ rotateIfPortrait 3 4 = ((4 : ℚ), (3 : ℚ))
    ∧ (processDims 3 4).2 ≤ (processDims 3 4).1 := by
  have hc := c5_rotation_normalization 3 4 (by norm_num)
  exact ⟨by norm_num, by norm_num, hc.1 (by norm_num), hc.2.2 (by norm_num)⟩

/-- C6: for positive source dimensions, the cached copy's dimensions (after
rotation normalization) satisfy width ≤ 2480 and height ≤ 1748, the resize
preserves the aspect ratio of the rotated original exactly, and it never
upscales: each cached dimension is at most the corresponding dimension of
the rotated original. -/
theorem c6_resize_bound (w h : ℚ) (hw : 0 < w) (hh : 0 < h) :
    (processDims w h).1 ≤ 2480 ∧ (processDims w h).2 ≤ 1748
    ∧ (processDims w h).1 * (rotateIfPortrait w h).2
        = (processDims w h).2 * (rotateIfPortrait w h).1
    ∧ (processDims w h).1 ≤ (rotateIfPortrait w h).1
    ∧ (processDims w h).2 ≤ (rotateIfPortrait w h).2 := by
  have hrp := rotateIfPortrait_pos w h hw hh
  have hts := thumbnail_spec (rotateIfPortrait w h).1 (rotateIfPortrait w h).2
    hrp.1 hrp.2.1
  rw [processDims]
  exact ⟨hts.1, hts.2.1, hts.2.2.1, hts.2.2.2.1, hts.2.2.2.2.1⟩

/-- Witness for c6_resize_bound at a 4961 × 3496 source (double the target
in each dimension). -/
theorem c6_resize_bound_witness :
    (0 : ℚ) < 4961 ∧ (0 : ℚ) < 3496
    ∧ (processDims 4961 3496).1 ≤ 2480
    ∧ (processDims 4961 3496).2 ≤ 1748 := by
  have hc := c6_resize_bound 4961 3496 (by norm_num) (by norm_num)
  exact ⟨by norm_num, by norm_num, hc.1, hc.2.1⟩

/-- The enumerated loop of `place` (src/main.py lines 61-113): each image is
resolved against the cache, then drawn into the page list by index parity.
An uncaught resolution failure aborts the loop; nothing after it runs. -/
def placeLoopE (decode : SourceImage → Except String (ℚ × ℚ))
    (hash : String → String) :
    List (ℕ × SourceImage) → Cache → List Page →
      Except String (List Page × Cache)
  | [], c, pages => Except.ok (pages, c)
  | e :: rest, c, pages =>
      match resolve decode hash c e.2 with
      | Except.error err => Except.error err
      | Except.ok r =>
          placeLoopE decode hash rest r.cache (placeStep pages (e.1, r.dims))

/-- The document-building part of `place`: the loop over the enumerated
sources, with the page list put back into drawing order at the end. -/
def buildDocument (decode : SourceImage → Except String (ℚ × ℚ))
    (hash : String → String) (c : Cache) (srcs : List SourceImage) :
    Except String (List Page × Cache) :=
  match placeLoopE decode hash (List.enum srcs) c [] with
  | Except.error e => Except.error e
  | Except.ok r => Except.ok (r.1.reverse, r.2)

/-- Modelled from the spec: the external ghostscript size optimizer invoked
by `os.system` (src/main.py lines 118-123) reads `{out}.large` and, on
success, writes the optimized document at `out`; on failure it writes
nothing. Its exit status is not inspected by the caller. -/
def runOptimizer (gsOk : Bool) (out : String) (pages : List Page) :
    List (String × List Page) :=
  if gsOk then [(out, pages)] else []

/-- The whole `place` command (src/main.py lines 42-123): build the document,
write it to `{out}.large` (src/main.py line 115), then invoke the optimizer.
Returns the document files written, in writing order; an error means the run
aborted with no document file written. -/
def placeCommand (decode : SourceImage → Except String (ℚ × ℚ))
    (hash : String → String) (c : Cache) (srcs : List SourceImage)
    (out : String) (gsOk : Bool) :
    Except String (List (String × List Page)) :=
  match buildDocument decode hash c srcs with
  | Except.error e => Except.error e
  | Except.ok r =>
      Except.ok ((out ++ ".large", r.1) :: runOptimizer gsOk out r.1)

/-- Helper: the loop over an appended list runs the first part, then the
second from the state the first part reached. -/
theorem placeLoopE_append (decode : SourceImage → Except String (ℚ × ℚ))
    (hash : String → String) (l1 l2 : List (ℕ × SourceImage)) :
    ∀ (c : Cache) (pages : List Page),
      placeLoopE decode hash (l1 ++ l2) c pages
        = match placeLoopE decode hash l1 c pages with
          | Except.error e => Except.error e
          | Except.ok r => placeLoopE decode hash l2 r.2 r.1 := by
  induction l1 with
  | nil => intro c pages; simp [placeLoopE]
  | cons e rest ih =>
      intro c pages
      rw [List.cons_append]
      simp only [placeLoopE]
      cases resolve decode hash c e.2 with
      | error err => rfl
      | ok r => exact ih r.cache (placeStep pages (e.1, r.dims))

/-- C8: when the image after `pre` is a cache miss whose decode fails, the
whole run aborts with that error: no later image is processed (the result
does not depend on `post` at all) and no document file is written (the
command returns an error, not a file list). -/
theorem c8_decode_failure_aborts (decode : SourceImage → Except String (ℚ × ℚ))
    (hash : String → String) (c : Cache) (pre : List SourceImage)
    (bad : SourceImage) (post : List SourceImage) (e : String)
    (pages1 : List Page) (c1 : Cache) (out : String) (gsOk : Bool)
    (hpre : placeLoopE decode hash (List.enum pre) c [] = Except.ok (pages1, c1))
    (hmiss : c1 (cachedKey hash bad) = none)
    (hdec : decode bad = Except.error e) :
    placeCommand decode hash c (pre ++ bad :: post) out gsOk = Except.error e := by
  have hbad : resolve decode hash c1 bad = Except.error e := by
    rw [resolve, hmiss, hdec]
  have henum : List.enum (pre ++ bad :: post)
      = List.enum pre ++ List.enumFrom pre.length (bad :: post) :=
    List.enum_append pre (bad :: post)
  have hloop : placeLoopE decode hash (List.enum (pre ++ bad :: post)) c []
      = Except.error e := by
    rw [henum, placeLoopE_append decode hash _ _ c [], hpre]
    rw [show List.enumFrom pre.length (bad :: post)
        = (pre.length, bad) :: List.enumFrom (pre.length + 1) post from rfl]
    simp only [placeLoopE]
    rw [hbad]
  rw [placeCommand, buildDocument, hloop]

/-- Witness for c8_decode_failure_aborts: a single corrupt image on an empty
cache aborts the run with its decode error. -/
theorem c8_decode_failure_aborts_witness :
    placeCommand (fun _ => Except.error "boom") (fun _ => "k") (fun _ => none)
      ([] ++ SourceImage.mk "p" ".jpg" :: []) "out.pdf" true
      = Except.error "boom" :=
  c8_decode_failure_aborts (fun _ => Except.error "boom") (fun _ => "k")
    (fun _ => none) [] (SourceImage.mk "p" ".jpg") [] "boom" [] (fun _ => none)
    "out.pdf" true rfl rfl rfl

/-- C9: on any successful build, the full-quality document is written to
`{out}.large` first (it heads the written-file list whatever the optimizer
does); the optimizer's failure is not detected — the command reports success
either way — and on optimizer failure the `.large` artifact is the only file
written, the output path itself (distinct from the `.large` path) never
being produced. -/
theorem c9_output_sequencing (decode : SourceImage → Except String (ℚ × ℚ))
    (hash : String → String) (c : Cache) (srcs : List SourceImage)
    (out : String) (pages : List Page) (c' : Cache)
    (hok : buildDocument decode hash c srcs = Except.ok (pages, c')) :
    (∀ gsOk, placeCommand decode hash c srcs out gsOk
        = Except.ok ((out ++ ".large", pages) :: runOptimizer gsOk out pages))
    ∧ placeCommand decode hash c srcs out true
        = Except.ok [(out ++ ".large", pages), (out, pages)]
    ∧ placeCommand decode hash c srcs out false
        = Except.ok [(out ++ ".large", pages)]
    ∧ out ++ ".large" ≠ out := by
  refine ⟨?_, ?_, ?_, ?_⟩
  · intro gsOk; rw [placeCommand, hok]
  · rw [placeCommand, hok]; rfl
  · rw [placeCommand, hok]; rfl
  · intro hcontra
    have hlen := congrArg String.length hcontra
    rw [String.length_append] at hlen
    have h6 : ".large".length = 6 := by decide
    omega

/-- Witness for c9_output_sequencing: an empty source list builds an empty
document, and with the optimizer failing only `out.pdf.large` is written. -/
theorem c9_output_sequencing_witness :
    placeCommand (fun _ => Except.error "boom") (fun _ => "k") (fun _ => none)
      [] "out.pdf" false
      = Except.ok [("out.pdf" ++ ".large", [])]
    ∧ "out.pdf" ++ ".large" ≠ "out.pdf" :=
  ⟨((c9_output_sequencing (fun _ => Except.error "boom") (fun _ => "k")
      (fun _ => none) [] "out.pdf" [] (fun _ => none) rfl).2.2.1),
   ((c9_output_sequencing (fun _ => Except.error "boom") (fun _ => "k")
      (fun _ => none) [] "out.pdf" [] (fun _ => none) rfl).2.2.2)⟩

end PhotoPlacer
